import Mathlib

/-!
Verification of the Safari-history redirect-chain injection detector
(`src/mvt/ios/modules/mixed/safari_history.py`).

The embedding models the two analysis passes of the `SafariHistory` module:

* `_find_injections` (lines 40-72): for every visit record with a plaintext
  HTTP url and a truthy `redirect_destination`, scan the whole sequence for
  the redirect record, compare registrable domains, and emit an informational
  diagnostic for cross-domain redirects plus an elevated one when the seconds
  component of the elapsed `timedelta` is zero.
* `check_indicators` (lines 74-82): run `_find_injections`, then, when an
  indicator set is configured, append every record whose url the indicator
  capability matches to `self.detected`.

Store-native timestamps are modelled as integer microseconds (the resolution
of Python `datetime`).  The external collaborators (`URL(...).domain`,
`convert_mactime_to_unix`, the indicator capability) are not under `src/`;
they are either abstracted as parameters or modelled from the spec, as noted
on each definition.
-/

namespace SafariHistory

/-- One browser history visit, as materialized by `run` (lines 103-113):
`id`, `url`, `visit_id`, raw `timestamp` (store-native time, here in integer
microseconds), and the optional redirect linkage fields. -/
structure VisitRecord where
  id : Int
  url : String
  visit_id : Int
  timestamp : Int
  redirect_source : Option Int
  redirect_destination : Option Int
  deriving DecidableEq

/-- Diagnostic log events emitted by chain analysis: the informational
`log.info` on line 63 (naming origin and redirect domains) and the
elevated-severity `log.warning` on line 72 (with the elapsed milliseconds
value as formatted by `%d`). -/
inductive Diagnostic where
  | info (origin_domain redirect_domain : String)
  | warning (elapsed_ms : Int)
  deriving DecidableEq

/-- Python truthiness of the optional integer `redirect_destination` field:
`None` and `0` are both falsy (line 47 tests `not result["redirect_destination"]`). -/
def pyTruthy : Option Int → Bool
  | none => false
  | some v => v != 0

/-- Boolean prefix test on character lists, used to embed Python
`str.startswith`. -/
def listIsPrefixOf : List Char → List Char → Bool
  | [], _ => true
  | _ :: _, [] => false
  | p :: ps, c :: cs => (p == c) && listIsPrefixOf ps cs

/-- Case-insensitive plaintext-HTTP scheme test; embeds
`result["url"].lower().startswith("http://")` from line 43. -/
def isHttpUrl (url : String) : Bool :=
  listIsPrefixOf "http://".data (url.data.map Char.toLower)

/-- Modelled from the spec: `convert_mactime_to_unix` (from `mvt.common.utils`,
not under `src/`) converts the store-native Mac-epoch time value to an
absolute Unix-epoch timestamp, and §4.1 requires the conversion to be pure.
With times in integer microseconds the conversion is addition of the fixed
epoch offset (978307200 seconds). -/
def convert_mactime_to_unix (t : Int) : Int :=
  t + 978307200000000

/-- Seconds component of a Python `timedelta` holding `us` microseconds:
after day/second/microsecond normalization this is
`(us mod 86400·10^6) / 10^6` (floor division, remainder non-negative).
Line 71 tests `elapsed_time.seconds == 0`. -/
def tdSeconds (us : Int) : Int :=
  us % 86400000000 / 1000000

/-- Microseconds component of a Python `timedelta` holding `us` microseconds:
`us mod 10^6`, non-negative.  Line 69 divides it by 1000 to obtain
`elapsed_ms`. -/
def tdMicroseconds (us : Int) : Int :=
  us % 1000000

/-- One iteration of the inner redirect-resolution loop (lines 53-72), for a
fixed origin record `result` and one candidate record `redirect`:
skip unless `redirect` is the record referenced by
`result["redirect_destination"]` (line 54); skip same-domain redirects
(lines 60-61); otherwise emit the informational diagnostic (line 63) and,
when the seconds component of the elapsed timedelta is zero, the elevated
one (lines 71-72).  The registrable-domain extraction `URL(...).domain` is
an external collaborator, abstracted as the `domain` parameter; the source
hoists `origin_domain` out of the loop (line 50), which is observationally
identical for a pure function. -/
def processRedirect (domain : String → String) (result redirect : VisitRecord) :
    List Diagnostic :=
  if result.redirect_destination != some redirect.visit_id then []
  else
    let origin_domain := domain result.url
    let redirect_domain := domain redirect.url
    if origin_domain == redirect_domain then []
    else
      let redirect_time := convert_mactime_to_unix redirect.timestamp
      let origin_time := convert_mactime_to_unix result.timestamp
      let elapsed_time := redirect_time - origin_time
      let elapsed_ms := tdMicroseconds elapsed_time / 1000
      Diagnostic.info origin_domain redirect_domain ::
        (if tdSeconds elapsed_time == 0 then [Diagnostic.warning elapsed_ms] else [])

/-- The inner `for redirect in self.results` loop of lines 53-72, for a fixed
origin record. -/
def innerScan (domain : String → String) (result : VisitRecord) :
    List VisitRecord → List Diagnostic
  | [] => []
  | redirect :: rest => processRedirect domain result redirect ++ innerScan domain result rest

/-- One iteration of the outer loop of `_find_injections` (lines 41-72):
skip non-HTTP origins (line 43), skip origins with a falsy
`redirect_destination` (line 47), otherwise scan the whole sequence for the
redirect record. -/
def processOrigin (domain : String → String) (results : List VisitRecord)
    (result : VisitRecord) : List Diagnostic :=
  if !isHttpUrl result.url then []
  else if !pyTruthy result.redirect_destination then []
  else innerScan domain result results

/-- The outer `for result in self.results` loop of `_find_injections`,
iterating over the suffix given as the last argument while the inner scan
always sees the full sequence `results`. -/
def injectionsFrom (domain : String → String) (results : List VisitRecord) :
    List VisitRecord → List Diagnostic
  | [] => []
  | result :: rest => processOrigin domain results result ++ injectionsFrom domain results rest

/-- The `_find_injections` method (lines 40-72): the concatenated diagnostics
emitted over the whole sequence. -/
def find_injections (domain : String → String) (results : List VisitRecord) :
    List Diagnostic :=
  injectionsFrom domain results results

/-- Modelled from the spec: the indicator capability (`self.indicators`,
supplied by the `IOSExtraction` base class, not under `src/`) exposes a
single boolean check `matches(domain_or_url) -> bool` (§4.3, §6); the source
calls it `check_domain` (line 81).  Its internal representation is the
indicator provider's concern, so it is modelled as an opaque boolean
function. -/
structure Indicators where
  check_domain : String → Bool

/-- The `for result in self.results` loop of lines 80-82: append each record
whose url the indicator capability matches to the accumulating `detected`
list. -/
def indicatorScan (ind : Indicators) :
    List VisitRecord → List VisitRecord → List VisitRecord
  | [], detected => detected
  | result :: rest, detected =>
      indicatorScan ind rest
        (if ind.check_domain result.url then detected ++ [result] else detected)

/-- The `check_indicators` method (lines 74-82): call `_find_injections`
first (line 75), then return early when no indicator set is configured
(lines 77-78), otherwise run the indicator scan.  The result pairs the
emitted diagnostics with the final `self.detected` list. -/
def check_indicators (domain : String → String) (indicators : Option Indicators)
    (results detected : List VisitRecord) : List Diagnostic × List VisitRecord :=
  let diags := find_injections domain results
  match indicators with
  | none => (diags, detected)
  | some ind => (diags, indicatorScan ind results detected)

/-- Observable events of one `check_indicators` call, in emission order:
diagnostic log events and appends to `self.detected`. -/
inductive Event where
  | diag (d : Diagnostic)
  | detect (r : VisitRecord)
  deriving DecidableEq

/-- Detection events emitted by the indicator loop of lines 80-82, in loop
order. -/
def indicatorEvents (ind : Indicators) : List VisitRecord → List Event
  | [] => []
  | result :: rest =>
      (if ind.check_domain result.url then [Event.detect result] else []) ++
        indicatorEvents ind rest

/-- Event trace of one `check_indicators` call: the `_find_injections` call
on line 75 runs to completion and emits its diagnostics before the indicator
loop of lines 80-82 emits any detection. -/
def check_indicators_events (domain : String → String)
    (indicators : Option Indicators) (results : List VisitRecord) : List Event :=
  (find_injections domain results).map Event.diag ++
    (match indicators with
     | none => []
     | some ind => indicatorEvents ind results)

/-- Instance state touched by the module: the loaded `self.results` sequence
and the `self.detected` list. -/
structure ModuleState where
  results : List VisitRecord
  detected : List VisitRecord
  deriving DecidableEq

/-- State-passing form of the outer loop of `_find_injections`: each
iteration reads `st.results` for the inner scan and emits diagnostics, and
the state is handed on to the rest of the loop. -/
def injectionsFromSt (domain : String → String) :
    List VisitRecord → ModuleState → ModuleState × List Diagnostic
  | [], st => (st, [])
  | result :: rest, st =>
      let diags := processOrigin domain st.results result
      let p := injectionsFromSt domain rest st
      (p.1, diags ++ p.2)

/-- State-passing form of `_find_injections`: iterate over `self.results`,
returning the final state and the emitted diagnostics. -/
def find_injections_st (domain : String → String) (st : ModuleState) :
    ModuleState × List Diagnostic :=
  injectionsFromSt domain st.results st

/-- Auxiliary for `specDomain`: split a character list on a separator
character. -/
def splitOnChar (c : Char) : List Char → List (List Char)
  | [] => [[]]
  | x :: xs =>
    let r := splitOnChar c xs
    if x == c then [] :: r
    else
      match r with
      | [] => [[x]]
      | g :: gs => (x :: g) :: gs

/-- Auxiliary for `specDomain`: drop everything up to and including the
first `://` separator. -/
def afterSchemeChars : List Char → List Char
  | ':' :: '/' :: '/' :: rest => rest
  | _ :: rest => afterSchemeChars rest
  | [] => []

/-- Auxiliary for `specDomain`: keep the host portion, i.e. the characters
before the first `/`. -/
def takeUntilSlash : List Char → List Char
  | [] => []
  | '/' :: _ => []
  | c :: rest => c :: takeUntilSlash rest

/-- Auxiliary for `specDomain`: re-join labels with dots. -/
def joinDots : List (List Char) → List Char
  | [] => []
  | [g] => g
  | g :: gs => g ++ '.' :: joinDots gs

/-- Modelled from the spec: `URL(...).domain` (from `mvt.common.url`, not
under `src/`) extracts the registrable domain of a URL (Glossary: e.g.
`a.com` from `http://sub.a.com/path`).  For a scheme-prefixed URL this
strips the scheme, keeps the host, and keeps the last two dot-separated
labels.  It is used only to instantiate the abstract `domain` parameter on
concrete inputs. -/
def specDomain (url : String) : String :=
  let labels := splitOnChar '.' (takeUntilSlash (afterSchemeChars url.data))
  String.mk (joinDots (labels.drop (labels.length - 2)))

/-- Concrete origin record of spec Scenario B: a plaintext-HTTP visit that
redirects to visit 2. -/
def originB : VisitRecord :=
  ⟨1, "http://a.com/", 1, 0, none, some 2⟩

/-- Concrete redirect record of spec Scenario B: an HTTPS visit on a
different domain, 300 ms (300000 µs) after the origin. -/
def redirectB : VisitRecord :=
  ⟨2, "https://b.com/", 2, 300000, none, none⟩

/-- Cross-domain redirect record whose timestamp lies exactly one day
(86400000000 µs) after `originB`. -/
def redirectDay : VisitRecord :=
  ⟨2, "https://b.com/", 2, 86400000000, none, none⟩

/-- Two plaintext-HTTP records with tied timestamps that redirect to each
other: first of the pair. -/
def tieA : VisitRecord :=
  ⟨1, "http://a.com/", 1, 0, none, some 2⟩

/-- Two plaintext-HTTP records with tied timestamps that redirect to each
other: second of the pair. -/
def tieB : VisitRecord :=
  ⟨2, "http://c.com/", 2, 0, none, some 1⟩

/-- Discriminator for the two kinds of observable events. -/
def isDiagEvent : Event → Bool
  | .diag _ => true
  | .detect _ => false

/-- A pair whose `redirect_destination` does not reference `redirect` is
skipped by line 54 of the inner loop. -/
theorem processRedirect_eq_nil_of_ne (domain : String → String)
    (result redirect : VisitRecord)
    (h : result.redirect_destination ≠ some redirect.visit_id) :
    processRedirect domain result redirect = [] := by
  simp [processRedirect, h]

/-- The inner scan emits nothing when no record of the scanned list is
referenced by the origin's `redirect_destination`. -/
theorem innerScan_eq_nil (domain : String → String) (result : VisitRecord)
    (l : List VisitRecord)
    (h : ∀ r ∈ l, result.redirect_destination ≠ some r.visit_id) :
    innerScan domain result l = [] := by
  induction l with
  | nil => rfl
  | cons x xs ih =>
      rw [innerScan,
        processRedirect_eq_nil_of_ne domain result x (h x (List.mem_cons_self x xs)),
        List.nil_append]
      exact ih fun r hr => h r (List.mem_cons_of_mem x hr)

/-- The outer loop distributes over concatenation of the iterated list. -/
theorem injectionsFrom_append (domain : String → String)
    (results l1 l2 : List VisitRecord) :
    injectionsFrom domain results (l1 ++ l2) =
      injectionsFrom domain results l1 ++ injectionsFrom domain results l2 := by
  induction l1 with
  | nil => rfl
  | cons x xs ih => simp [injectionsFrom, ih]

/-- The indicator loop appends exactly the records whose url the capability
matches, in input order. -/
theorem indicatorScan_eq (ind : Indicators) (l detected : List VisitRecord) :
    indicatorScan ind l detected =
      detected ++ l.filter (fun r => ind.check_domain r.url) := by
  induction l generalizing detected with
  | nil => simp [indicatorScan]
  | cons x xs ih =>
      by_cases h : ind.check_domain x.url <;>
        simp [indicatorScan, h, ih]

/-- The state-passing outer loop returns the state unchanged and the same
diagnostics as the pure one. -/
theorem injectionsFromSt_eq (domain : String → String) (l : List VisitRecord)
    (st : ModuleState) :
    injectionsFromSt domain l st = (st, injectionsFrom domain st.results l) := by
  induction l with
  | nil => rfl
  | cons x xs ih => simp [injectionsFromSt, injectionsFrom, ih]

/-- The detection events are the matched records, in input order. -/
theorem indicatorEvents_eq (ind : Indicators) (l : List VisitRecord) :
    indicatorEvents ind l =
      (l.filter (fun r => ind.check_domain r.url)).map Event.detect := by
  induction l with
  | nil => rfl
  | cons x xs ih =>
      by_cases h : ind.check_domain x.url <;> simp [indicatorEvents, h, ih]

/-- In a concatenation whose first part holds only diagnostic events and
whose second part holds only detection events, every diagnostic index
precedes every detection index. -/
theorem diag_before_detect (A B : List Event)
    (hA : ∀ e ∈ A, isDiagEvent e = true) (hB : ∀ e ∈ B, isDiagEvent e = false)
    (i j : ℕ) (d : Diagnostic) (r : VisitRecord)
    (hi : (A ++ B)[i]? = some (Event.diag d))
    (hj : (A ++ B)[j]? = some (Event.detect r)) : i < j := by
  have hiA : i < A.length := by
    by_contra hle
    push_neg at hle
    rw [List.getElem?_append_right hle] at hi
    obtain ⟨hlt, heq⟩ := List.getElem?_eq_some.mp hi
    have hmem : Event.diag d ∈ B := heq ▸ List.getElem_mem hlt
    have := hB _ hmem
    simp [isDiagEvent] at this
  have hjB : A.length ≤ j := by
    by_contra hlt
    push_neg at hlt
    rw [List.getElem?_append, if_pos hlt] at hj
    obtain ⟨hlt2, heq⟩ := List.getElem?_eq_some.mp hj
    have hmem : Event.detect r ∈ A := heq ▸ List.getElem_mem hlt2
    have := hA _ hmem
    simp [isDiagEvent] at this
  exact lt_of_lt_of_le hiA hjB

/-- C1 (amended): for every origin/redirect pair that chain analysis flags
as a cross-domain HTTP redirect, the informational diagnostic is always
emitted, and the elevated-severity diagnostic (carrying the microseconds
component divided by 1000, i.e. the elapsed time rounded down to
milliseconds) is emitted if and only if the seconds component of the
day-normalized elapsed timedelta is zero — that is, the elapsed time between
the converted absolute timestamps, reduced modulo 86400 seconds, is under
one second.  For elapsed times below one day this coincides with the
claim's "under one second". -/
theorem claim_C1 (domain : String → String) (origin redirect : VisitRecord)
    (hdest : origin.redirect_destination = some redirect.visit_id)
    (hdom : domain origin.url ≠ domain redirect.url) :
    Diagnostic.info (domain origin.url) (domain redirect.url) ∈
        processRedirect domain origin redirect ∧
    (Diagnostic.warning
        (tdMicroseconds (convert_mactime_to_unix redirect.timestamp -
          convert_mactime_to_unix origin.timestamp) / 1000) ∈
          processRedirect domain origin redirect ↔
      tdSeconds (convert_mactime_to_unix redirect.timestamp -
        convert_mactime_to_unix origin.timestamp) = 0) := by
  have h1 : (origin.redirect_destination != some redirect.visit_id) = false := by
    simp [hdest]
  have h2 : (domain origin.url == domain redirect.url) = false := by simp [hdom]
  by_cases h3 : tdSeconds (convert_mactime_to_unix redirect.timestamp -
      convert_mactime_to_unix origin.timestamp) = 0
  · simp [processRedirect, h1, h2, h3]
  · simp [processRedirect, h1, h2, h3]

/-- Witness for C1: on Scenario B (`http://a.com/` redirecting to
`https://b.com/` 300 ms later) the flagged pair gets the informational
diagnostic and the elevated one, since the seconds component is zero. -/
theorem claim_C1_witness :
    Diagnostic.info (specDomain originB.url) (specDomain redirectB.url) ∈
        processRedirect specDomain originB redirectB ∧
    (Diagnostic.warning
        (tdMicroseconds (convert_mactime_to_unix redirectB.timestamp -
          convert_mactime_to_unix originB.timestamp) / 1000) ∈
          processRedirect specDomain originB redirectB ↔
      tdSeconds (convert_mactime_to_unix redirectB.timestamp -
        convert_mactime_to_unix originB.timestamp) = 0) :=
  claim_C1 specDomain originB redirectB (by decide) (by decide)

/-- Counterexample to C1 as stated: for a cross-domain HTTP redirect whose
elapsed time is exactly one day (86400000000 µs ≥ 1 s, so not "under one
second"), the code still emits the elevated-severity diagnostic, because the
seconds component of the day-normalized elapsed timedelta is zero. -/
theorem claim_C1_counterexample :
    Diagnostic.warning 0 ∈ find_injections specDomain [originB, redirectDay] ∧
    (1000000 : Int) ≤ convert_mactime_to_unix redirectDay.timestamp -
      convert_mactime_to_unix originB.timestamp :=
  ⟨by decide, by decide⟩

/-- C2: a record whose url is not plaintext HTTP (case-insensitive prefix
match on `http://`, so HTTPS is exempt) or whose `redirectDestination` is
absent contributes no diagnostic to chain analysis. -/
theorem claim_C2 (domain : String → String) (results : List VisitRecord)
    (result : VisitRecord)
    (h : isHttpUrl result.url = false ∨ result.redirect_destination = none) :
    processOrigin domain results result = [] := by
  rcases h with h | h
  · simp [processOrigin, h]
  · unfold processOrigin
    split
    · rfl
    · simp [h, pyTruthy]

/-- Witness for C2: an HTTPS visit is skipped even though it carries a
redirect destination. -/
theorem claim_C2_witness :
    (isHttpUrl "https://a.com/" = false ∨
      (⟨1, "https://a.com/", 1, 0, none, some 2⟩ : VisitRecord).redirect_destination =
        none) ∧
    processOrigin specDomain [] ⟨1, "https://a.com/", 1, 0, none, some 2⟩ = [] :=
  ⟨Or.inl (by decide),
    claim_C2 specDomain [] ⟨1, "https://a.com/", 1, 0, none, some 2⟩
      (Or.inl (by decide))⟩

/-- C3: when the registrable domain of the origin's url equals that of the
redirect's url, the pair is treated as a same-domain HTTP-to-HTTPS upgrade
and no diagnostic is emitted for it. -/
theorem claim_C3 (domain : String → String) (origin redirect : VisitRecord)
    (h : domain origin.url = domain redirect.url) :
    processRedirect domain origin redirect = [] := by
  simp only [processRedirect]
  split
  · rfl
  · simp [h]

/-- Witness for C3: Scenario A, `http://a.com/` redirecting to
`https://a.com/`, produces no diagnostic. -/
theorem claim_C3_witness :
    specDomain (⟨1, "http://a.com/", 1, 0, none, some 2⟩ : VisitRecord).url =
      specDomain (⟨2, "https://a.com/", 2, 500000, none, none⟩ : VisitRecord).url ∧
    processRedirect specDomain ⟨1, "http://a.com/", 1, 0, none, some 2⟩
      ⟨2, "https://a.com/", 2, 500000, none, none⟩ = [] :=
  ⟨by decide,
    claim_C3 specDomain ⟨1, "http://a.com/", 1, 0, none, some 2⟩
      ⟨2, "https://a.com/", 2, 500000, none, none⟩ (by decide)⟩

/-- C4: an origin whose `redirectDestination` references a `visitId` absent
from the sequence yields no diagnostic and no error, and the records around
it are processed exactly as they would be without it. -/
theorem claim_C4 (domain : String → String) (results : List VisitRecord)
    (origin : VisitRecord) (pre post : List VisitRecord)
    (h : ∀ r ∈ results, origin.redirect_destination ≠ some r.visit_id) :
    processOrigin domain results origin = [] ∧
    injectionsFrom domain results (pre ++ origin :: post) =
      injectionsFrom domain results pre ++ injectionsFrom domain results post := by
  have hnil : processOrigin domain results origin = [] := by
    unfold processOrigin
    split
    · rfl
    · split
      · rfl
      · exact innerScan_eq_nil domain origin results h
  refine ⟨hnil, ?_⟩
  rw [injectionsFrom_append]
  simp [injectionsFrom, hnil]

/-- Witness for C4: Scenario D, an HTTP visit referencing the absent
`visitId` 99 in a two-record sequence, contributes nothing and leaves the
processing of the other record intact. -/
theorem claim_C4_witness :
    processOrigin specDomain [⟨1, "http://a.com/", 1, 0, none, some 99⟩, redirectB]
      ⟨1, "http://a.com/", 1, 0, none, some 99⟩ = [] ∧
    injectionsFrom specDomain [⟨1, "http://a.com/", 1, 0, none, some 99⟩, redirectB]
      ([redirectB] ++ ⟨1, "http://a.com/", 1, 0, none, some 99⟩ :: []) =
      injectionsFrom specDomain
        [⟨1, "http://a.com/", 1, 0, none, some 99⟩, redirectB] [redirectB] ++
      injectionsFrom specDomain
        [⟨1, "http://a.com/", 1, 0, none, some 99⟩, redirectB] [] :=
  claim_C4 specDomain [⟨1, "http://a.com/", 1, 0, none, some 99⟩, redirectB]
    ⟨1, "http://a.com/", 1, 0, none, some 99⟩ [redirectB] [] (by decide)

/-- C5: with no indicator set configured, `check_indicators` leaves the
detected list exactly as it was, so a run starting from an empty list ends
with an empty DetectionResult. -/
theorem claim_C5 (domain : String → String) (results detected : List VisitRecord) :
    (check_indicators domain none results detected).2 = detected ∧
    (check_indicators domain none results []).2 = [] :=
  ⟨rfl, rfl⟩

/-- C6: with an indicator set configured, the final DetectionResult of a run
is exactly the subsequence of input records whose url the indicator
capability matches — order preserved, and (being a sublist of the input)
each input occurrence contributes at most one entry. -/
theorem claim_C6 (domain : String → String) (ind : Indicators)
    (results : List VisitRecord) :
    (check_indicators domain (some ind) results []).2 =
      results.filter (fun r => ind.check_domain r.url) ∧
    ((check_indicators domain (some ind) results []).2).Sublist results := by
  have h : (check_indicators domain (some ind) results []).2 =
      results.filter (fun r => ind.check_domain r.url) := by
    simp [check_indicators, indicatorScan_eq]
  exact ⟨h, h ▸ List.filter_sublist results⟩

/-- C7: in the event trace of one `check_indicators` call, every chain-
analysis diagnostic occurs strictly before every indicator detection. -/
theorem claim_C7 (domain : String → String) (indicators : Option Indicators)
    (results : List VisitRecord) (i j : ℕ) (d : Diagnostic) (r : VisitRecord)
    (hi : (check_indicators_events domain indicators results)[i]? =
      some (Event.diag d))
    (hj : (check_indicators_events domain indicators results)[j]? =
      some (Event.detect r)) :
    i < j := by
  have hA : ∀ e ∈ (find_injections domain results).map Event.diag,
      isDiagEvent e = true := by
    intro e he
    obtain ⟨dd, -, rfl⟩ := List.mem_map.mp he
    rfl
  cases indicators with
  | none =>
      have hev : check_indicators_events domain none results =
          (find_injections domain results).map Event.diag ++ [] := rfl
      rw [hev] at hi hj
      exact diag_before_detect _ _ hA
        (fun e he => absurd he (List.not_mem_nil e)) i j d r hi hj
  | some ind =>
      have hev : check_indicators_events domain (some ind) results =
          (find_injections domain results).map Event.diag ++
            indicatorEvents ind results := rfl
      rw [hev] at hi hj
      have hB : ∀ e ∈ indicatorEvents ind results, isDiagEvent e = false := by
        intro e he
        rw [indicatorEvents_eq] at he
        obtain ⟨rec, -, rfl⟩ := List.mem_map.mp he
        rfl
      exact diag_before_detect _ _ hA hB i j d r hi hj

/-- Witness for C7: with a match-everything indicator over Scenario B's two
records, the trace holds a diagnostic at index 0 and a detection at index 2,
and the theorem yields 0 < 2. -/
theorem claim_C7_witness :
    (check_indicators_events specDomain (some ⟨fun _ => true⟩)
      [originB, redirectB])[0]? =
        some (Event.diag (Diagnostic.info "a.com" "b.com")) ∧
    (check_indicators_events specDomain (some ⟨fun _ => true⟩)
      [originB, redirectB])[2]? = some (Event.detect originB) ∧
    (0 : ℕ) < 2 :=
  ⟨by decide, by decide,
    claim_C7 specDomain (some ⟨fun _ => true⟩) [originB, redirectB] 0 2
      (Diagnostic.info "a.com" "b.com") originB (by decide) (by decide)⟩

/-- C8: chain analysis leaves the instance state (the `results` sequence and
the `detected` list) unchanged, and its only output is the diagnostics. -/
theorem claim_C8 (domain : String → String) (st : ModuleState) :
    (find_injections_st domain st).1 = st ∧
    (find_injections_st domain st).2 = find_injections domain st.results := by
  unfold find_injections_st find_injections
  rw [injectionsFromSt_eq]
  exact ⟨rfl, rfl⟩

/-- C9 (amended): for an input sequence with strictly ascending timestamps,
any permuted copy that is re-sorted ascending by timestamp is the original
sequence itself, so chain analysis yields identical diagnostics.  (With tied
timestamps the re-sorted copy may order tied records differently and the
diagnostic list can differ — see the counterexample.) -/
theorem claim_C9 (domain : String → String) (l l' : List VisitRecord)
    (hstrict : List.Sorted (fun a b => a.timestamp < b.timestamp) l)
    (hperm : l'.Perm l)
    (hsorted : List.Sorted (fun a b => a.timestamp ≤ b.timestamp) l') :
    find_injections domain l' = find_injections domain l := by
  have hne : List.Pairwise (fun a b : VisitRecord => a.timestamp ≠ b.timestamp) l :=
    hstrict.imp fun h => ne_of_lt h
  have hne' : List.Pairwise (fun a b : VisitRecord => a.timestamp ≠ b.timestamp) l' :=
    hne.perm hperm.symm fun h => h.symm
  have hlt : List.Sorted (fun a b : VisitRecord => a.timestamp < b.timestamp) l' :=
    (hsorted.and hne').imp fun h => lt_of_le_of_ne h.1 h.2
  have heq : l' = l := by
    haveI : IsAntisymm VisitRecord (fun a b => a.timestamp < b.timestamp) :=
      ⟨fun _ _ h1 h2 => absurd h2 (lt_asymm h1)⟩
    exact List.eq_of_perm_of_sorted hperm hlt hstrict
  rw [heq]

/-- Witness for C9: Scenario B's two records have strictly ascending
timestamps, and the (unique) timestamp-sorted permutation yields the same
diagnostics. -/
theorem claim_C9_witness :
    find_injections specDomain [originB, redirectB] =
      find_injections specDomain [originB, redirectB] :=
  claim_C9 specDomain [originB, redirectB] [originB, redirectB]
    (by decide) (List.Perm.refl _) (by decide)

/-- Counterexample to C9 as stated: two records with tied timestamps that
redirect to each other; both orders are ascending by timestamp and
permutations of each other, yet chain analysis emits the diagnostics in a
different order, so the diagnostic lists are not identical. -/
theorem claim_C9_counterexample :
    List.Sorted (fun a b : VisitRecord => a.timestamp ≤ b.timestamp) [tieA, tieB] ∧
    List.Sorted (fun a b : VisitRecord => a.timestamp ≤ b.timestamp) [tieB, tieA] ∧
    [tieA, tieB].Perm [tieB, tieA] ∧
    find_injections specDomain [tieA, tieB] ≠
      find_injections specDomain [tieB, tieA] :=
  ⟨by decide, by decide, by decide, by decide⟩

/-- C10: a record whose `redirect_destination` holds the falsy value 0 is
skipped by the truthiness test on line 47 exactly as if it had no redirect
destination, even when 0 is a `visit_id` present in the sequence. -/
theorem claim_C10 (domain : String → String) (results : List VisitRecord)
    (result : VisitRecord) (h : result.redirect_destination = some 0) :
    processOrigin domain results result = [] := by
  unfold processOrigin
  split
  · rfl
  · simp [h, pyTruthy]

/-- Witness for C10: an HTTP visit with `redirect_destination = 0` is
skipped although the sequence contains a record with `visit_id = 0`. -/
theorem claim_C10_witness :
    (⟨1, "http://a.com/", 1, 0, none, some 0⟩ : VisitRecord).redirect_destination =
      some 0 ∧
    processOrigin specDomain [⟨2, "https://b.com/", 0, 300000, none, none⟩]
      ⟨1, "http://a.com/", 1, 0, none, some 0⟩ = [] :=
  ⟨rfl,
    claim_C10 specDomain [⟨2, "https://b.com/", 0, 300000, none, none⟩]
      ⟨1, "http://a.com/", 1, 0, none, some 0⟩ rfl⟩

end SafariHistory
